import Mathlib

/-!
Shallow embedding of the `mcli_rust` core.

The repository's visible source (`src/mcli_rust/src/lib.rs`) is the PyO3
registration shim; it declares the modules `tfidf` (TfIdfVectorizer),
`command_parser` (CommandMatcher), `file_watcher` (FileWatcher) and
`process_manager` (ProcessManager) but their code is not part of the visible
tree.  Every operation below is therefore modelled from the specification of
those components: tokenisation, vocabulary learning, TF-IDF vectorisation,
cosine similarity, catalog indexing and querying, incremental change
application, fallible re-indexing, and the process-handle lifecycle
operations `terminate` and `reap`.
-/

namespace Mcli

/-! ### Tokenisation -/

/-- Modelled from the spec: `tfidf` tokenisation ("normalize case, split on
non-alphanumeric boundaries").  Accumulates the current token in reverse. -/
def tokenizeAux : List Char → List Char → List String
  | [], [] => []
  | [], cur => [String.mk cur.reverse]
  | c :: rest, cur =>
    if c.isAlphanum then tokenizeAux rest (c.toLower :: cur)
    else if cur.isEmpty then tokenizeAux rest []
    else String.mk cur.reverse :: tokenizeAux rest []

/-- Modelled from the spec: tokenising a text lowercases it and splits it on
non-alphanumeric boundaries. -/
def tokenize (s : String) : List String := tokenizeAux s.data []

/-! ### Vocabulary -/

/-- Modelled from the spec: the `tfidf` Vocabulary.  `terms` records the
term-to-index assignment (the index of a term is its position in the list),
`df` the per-index document-frequency counts, `nDocs` the total number of
documents indexed. -/
structure Vocabulary where
  terms : List String
  df : List Nat
  nDocs : Nat
deriving DecidableEq

/-- The empty vocabulary. -/
def emptyVocab : Vocabulary := ⟨[], [], 0⟩

/-- Modelled from the spec: registering one distinct term of a document.  A
known term has its document-frequency count incremented in place; an unseen
term is appended with a fresh index and count 1. -/
def addTerm (v : Vocabulary) (t : String) : Vocabulary :=
  match v.terms.indexOf? t with
  | some i => { v with df := v.df.set i (v.df.getD i 0 + 1) }
  | none => { terms := v.terms ++ [t], df := v.df ++ [1], nDocs := v.nDocs }

/-- Registering a list of distinct terms, left to right. -/
def addTerms (v : Vocabulary) : List String → Vocabulary
  | [] => v
  | t :: ts => addTerms (addTerm v t) ts

/-- Modelled from the spec: folding one document into the vocabulary —
each distinct token of the document counts once towards document frequency,
and the total document count increases by one. -/
def learnDoc (v : Vocabulary) (text : String) : Vocabulary :=
  let v1 := addTerms v (tokenize text).dedup
  { v1 with nDocs := v1.nDocs + 1 }

/-- Modelled from the spec: `learn_vocabulary(corpus)` extends the Vocabulary
with any unseen terms and updates document-frequency counts, one document at
a time. -/
def learn_vocabulary (v : Vocabulary) : List String → Vocabulary
  | [] => v
  | d :: ds => learn_vocabulary (learnDoc v d) ds

/-! ### Append-only growth of the term list -/

theorem addTerm_terms_append (v : Vocabulary) (t : String) :
    ∃ ts, (addTerm v t).terms = v.terms ++ ts := by
  unfold addTerm
  cases v.terms.indexOf? t with
  | none => exact ⟨[t], rfl⟩
  | some i => exact ⟨[], (List.append_nil _).symm⟩

theorem addTerms_terms_append (l : List String) :
    ∀ v : Vocabulary, ∃ ts, (addTerms v l).terms = v.terms ++ ts := by
  induction l with
  | nil => intro v; exact ⟨[], (List.append_nil _).symm⟩
  | cons t l ih =>
    intro v
    obtain ⟨ts1, h1⟩ := addTerm_terms_append v t
    obtain ⟨ts2, h2⟩ := ih (addTerm v t)
    exact ⟨ts1 ++ ts2, by rw [addTerms, h2, h1, List.append_assoc]⟩

theorem learnDoc_terms_append (v : Vocabulary) (d : String) :
    ∃ ts, (learnDoc v d).terms = v.terms ++ ts := by
  unfold learnDoc
  exact addTerms_terms_append _ v

theorem learn_vocabulary_terms_append (corpus : List String) :
    ∀ v : Vocabulary, ∃ ts, (learn_vocabulary v corpus).terms = v.terms ++ ts := by
  induction corpus with
  | nil => intro v; exact ⟨[], (List.append_nil _).symm⟩
  | cons d ds ih =>
    intro v
    obtain ⟨ts1, h1⟩ := learnDoc_terms_append v d
    obtain ⟨ts2, h2⟩ := ih (learnDoc v d)
    exact ⟨ts1 ++ ts2, by rw [learn_vocabulary, h2, h1, List.append_assoc]⟩

/-! ### TF-IDF vectors -/

/-- Modelled from the spec: smoothed inverse document frequency of the term at
index `i`: `ln((1 + N) / (1 + df(term))) + 1`. -/
noncomputable def idf (v : Vocabulary) (i : Nat) : ℝ :=
  Real.log ((1 + (v.nDocs : ℝ)) / (1 + (v.df.getD i 0 : ℝ))) + 1

/-- Modelled from the spec: un-normalised TF-IDF weight of vocabulary index `i`
for a token list: term frequency (occurrence count over token count)
times smoothed inverse document frequency.  Indices beyond the vocabulary
carry weight zero. -/
noncomputable def rawWeight (v : Vocabulary) (toks : List String) (i : Nat) : ℝ :=
  match v.terms[i]? with
  | some t => ((toks.count t : ℝ) / (toks.length : ℝ)) * idf v i
  | none => 0

theorem rawWeight_eq_zero_of_ge (v : Vocabulary) (toks : List String) (i : Nat)
    (h : v.terms.length ≤ i) : rawWeight v toks i = 0 := by
  unfold rawWeight
  rw [List.getElem?_eq_none h]

/-- Modelled from the spec: the sparse un-normalised TF-IDF vector of a token
list, supported on the vocabulary's index range. -/
noncomputable def rawVec (v : Vocabulary) (toks : List String) : ℕ →₀ ℝ :=
  Finsupp.onFinset (Finset.range v.terms.length) (rawWeight v toks)
    (fun i hi => by
      rw [Finset.mem_range]
      by_contra hlt
      exact hi (rawWeight_eq_zero_of_ge v toks i (Nat.le_of_not_lt hlt)))

/-- Modelled from the spec: the L2 (euclidean) norm of a sparse vector. -/
noncomputable def l2norm (a : ℕ →₀ ℝ) : ℝ :=
  Real.sqrt (∑ i ∈ a.support, a i ^ 2)

/-- Modelled from the spec: L2-normalisation of a sparse vector.  With Lean's
division-by-zero convention the all-zero vector maps to itself. -/
noncomputable def normalizeVec (a : ℕ →₀ ℝ) : ℕ →₀ ℝ :=
  Finsupp.mapRange (fun x => x / l2norm a) (zero_div _) a

/-- Modelled from the spec: `vectorize(text)` tokenizes the text identically to
`learn_vocabulary`, computes TF-IDF weights over the vocabulary, and
L2-normalises the result. -/
noncomputable def vectorize (v : Vocabulary) (text : String) : ℕ →₀ ℝ :=
  normalizeVec (rawVec v (tokenize text))

/-- Modelled from the spec: sparse dot product over indices present in both
vectors. -/
noncomputable def dotp (a b : ℕ →₀ ℝ) : ℝ :=
  ∑ i ∈ a.support ∩ b.support, a i * b i

/-- Modelled from the spec: `similarity(a, b)` is cosine similarity, returning
0 when either vector is all-zero rather than failing. -/
noncomputable def similarity (a b : ℕ →₀ ℝ) : ℝ :=
  if l2norm a = 0 ∨ l2norm b = 0 then 0
  else dotp a b / (l2norm a * l2norm b)

/-! ### Basic facts about the norm, dot product and similarity -/

theorem l2norm_nonneg (a : ℕ →₀ ℝ) : 0 ≤ l2norm a := Real.sqrt_nonneg _

theorem l2norm_eq_zero_iff (a : ℕ →₀ ℝ) : l2norm a = 0 ↔ a = 0 := by
  unfold l2norm
  rw [Real.sqrt_eq_zero']
  constructor
  · intro hle
    have hsum : ∑ i ∈ a.support, a i ^ 2 = 0 :=
      le_antisymm hle (Finset.sum_nonneg fun i _ => sq_nonneg _)
    ext i
    by_cases hi : i ∈ a.support
    · have := (Finset.sum_eq_zero_iff_of_nonneg fun j _ => sq_nonneg (a j)).mp hsum i hi
      have : a i = 0 := by
        have := sq_eq_zero_iff.mp this
        exact this
      simpa using this
    · simpa using Finsupp.not_mem_support_iff.mp hi
  · intro h
    subst h
    simp

theorem dotp_nonneg (a b : ℕ →₀ ℝ) (ha : ∀ i, 0 ≤ a i) (hb : ∀ i, 0 ≤ b i) :
    0 ≤ dotp a b :=
  Finset.sum_nonneg fun i _ => mul_nonneg (ha i) (hb i)

theorem dotp_eq_sum_union (a b : ℕ →₀ ℝ) :
    dotp a b = ∑ i ∈ a.support ∪ b.support, a i * b i := by
  unfold dotp
  refine Finset.sum_subset Finset.inter_subset_union ?_
  intro i hiu hini
  rcases Finset.mem_union.mp hiu with hia | hib
  · have : b i = 0 := by
      by_contra hbne
      exact hini (Finset.mem_inter.mpr ⟨hia, Finsupp.mem_support_iff.mpr hbne⟩)
    rw [this, mul_zero]
  · have : a i = 0 := by
      by_contra hane
      exact hini (Finset.mem_inter.mpr ⟨Finsupp.mem_support_iff.mpr hane, hib⟩)
    rw [this, zero_mul]

theorem sq_sum_eq_on (a : ℕ →₀ ℝ) (s : Finset ℕ) (hs : a.support ⊆ s) :
    ∑ i ∈ s, a i ^ 2 = ∑ i ∈ a.support, a i ^ 2 := by
  symm
  refine Finset.sum_subset hs ?_
  intro i _ hia
  rw [Finsupp.not_mem_support_iff.mp hia]
  simp

theorem dotp_le_norm_mul_norm (a b : ℕ →₀ ℝ) :
    dotp a b ≤ l2norm a * l2norm b := by
  rw [dotp_eq_sum_union]
  have hcs := Real.sum_mul_le_sqrt_mul_sqrt (a.support ∪ b.support)
    (fun i => a i) (fun i => b i)
  have ha := sq_sum_eq_on a (a.support ∪ b.support) Finset.subset_union_left
  have hb := sq_sum_eq_on b (a.support ∪ b.support) Finset.subset_union_right
  unfold l2norm
  calc ∑ i ∈ a.support ∪ b.support, a i * b i
      ≤ Real.sqrt (∑ i ∈ a.support ∪ b.support, a i ^ 2) *
        Real.sqrt (∑ i ∈ a.support ∪ b.support, b i ^ 2) := hcs
    _ = Real.sqrt (∑ i ∈ a.support, a i ^ 2) *
        Real.sqrt (∑ i ∈ b.support, b i ^ 2) := by rw [ha, hb]

theorem dotp_self (a : ℕ →₀ ℝ) : dotp a a = l2norm a * l2norm a := by
  unfold dotp l2norm
  rw [Finset.inter_self, Real.mul_self_sqrt (Finset.sum_nonneg fun i _ => sq_nonneg _)]
  exact Finset.sum_congr rfl fun i _ => (sq (a i)).symm

theorem similarity_eq_zero_of_left_zero (b : ℕ →₀ ℝ) : similarity 0 b = 0 := by
  unfold similarity
  rw [if_pos]
  exact Or.inl ((l2norm_eq_zero_iff 0).mpr rfl)

theorem rawVec_apply (v : Vocabulary) (toks : List String) (i : Nat) :
    rawVec v toks i = rawWeight v toks i := Finsupp.onFinset_apply

theorem vectorize_apply (v : Vocabulary) (text : String) (i : Nat) :
    vectorize v text i = rawWeight v (tokenize text) i / l2norm (rawVec v (tokenize text)) := by
  unfold vectorize normalizeVec
  rw [Finsupp.mapRange_apply, rawVec_apply]

/-- A concrete non-zero sparse vector used to witness similarity claims. -/
noncomputable def unitVec : ℕ →₀ ℝ := Finsupp.single 0 1

/-- Claim C3: for all document vectors `a` and `b` (non-negative sparse
vectors), `similarity a b` lies in `[0, 1]`; it returns `0` whenever either
vector is all-zero; and `similarity v v = 1` for every non-zero `v`. -/
theorem C3_similarity_bounds (a b : ℕ →₀ ℝ)
    (ha : ∀ i, 0 ≤ a i) (hb : ∀ i, 0 ≤ b i) :
    (0 ≤ similarity a b ∧ similarity a b ≤ 1)
    ∧ (a = 0 ∨ b = 0 → similarity a b = 0)
    ∧ (a ≠ 0 → similarity a a = 1) := by
  refine ⟨?_, ?_, ?_⟩
  · unfold similarity
    by_cases hz : l2norm a = 0 ∨ l2norm b = 0
    · rw [if_pos hz]
      exact ⟨le_refl 0, zero_le_one⟩
    · rw [if_neg hz]
      push_neg at hz
      have hna : 0 < l2norm a := lt_of_le_of_ne (l2norm_nonneg a) (Ne.symm hz.1)
      have hnb : 0 < l2norm b := lt_of_le_of_ne (l2norm_nonneg b) (Ne.symm hz.2)
      have hprod : 0 < l2norm a * l2norm b := mul_pos hna hnb
      constructor
      · exact div_nonneg (dotp_nonneg a b ha hb) (le_of_lt hprod)
      · rw [div_le_one hprod]
        exact dotp_le_norm_mul_norm a b
  · intro hz
    unfold similarity
    rw [if_pos]
    rcases hz with hz | hz
    · exact Or.inl ((l2norm_eq_zero_iff a).mpr hz)
    · exact Or.inr ((l2norm_eq_zero_iff b).mpr hz)
  · intro hne
    have hnz : l2norm a ≠ 0 := fun h => hne ((l2norm_eq_zero_iff a).mp h)
    unfold similarity
    rw [if_neg (by push_neg; exact ⟨hnz, hnz⟩)]
    rw [dotp_self]
    exact div_self (mul_ne_zero hnz hnz)

/-- Witness for C3 at the concrete non-zero vector `unitVec`. -/
theorem C3_witness :
    (0 ≤ similarity unitVec unitVec ∧ similarity unitVec unitVec ≤ 1)
    ∧ (unitVec = 0 ∨ unitVec = 0 → similarity unitVec unitVec = 0)
    ∧ (unitVec ≠ 0 → similarity unitVec unitVec = 1) :=
  C3_similarity_bounds unitVec unitVec
    (fun i => by
      unfold unitVec
      rw [Finsupp.single_apply]
      split <;> norm_num)
    (fun i => by
      unfold unitVec
      rw [Finsupp.single_apply]
      split <;> norm_num)

/-- Claim C2: `vectorize` assigns each in-vocabulary term the weight
"term frequency times smoothed IDF, then L2-normalised", and indices outside
the vocabulary carry zero weight. -/
theorem C2_vectorize_formula (v : Vocabulary) (text : String) :
    (∀ i (h : i < v.terms.length),
      vectorize v text i =
        ((tokenize text).count (v.terms.get ⟨i, h⟩) : ℝ) / ((tokenize text).length : ℝ)
          * (Real.log ((1 + (v.nDocs : ℝ)) / (1 + (v.df.getD i 0 : ℝ))) + 1)
          / l2norm (rawVec v (tokenize text)))
    ∧ (∀ i, v.terms.length ≤ i → vectorize v text i = 0) := by
  constructor
  · intro i h
    rw [vectorize_apply]
    unfold rawWeight idf
    rw [List.getElem?_eq_getElem h]
    rw [List.get_eq_getElem]
  · intro i h
    rw [vectorize_apply, rawWeight_eq_zero_of_ge v (tokenize text) i h, zero_div]

/-- A concrete one-term vocabulary used as witness input. -/
def vocabEx : Vocabulary := ⟨["git"], [1], 1⟩

/-- Witness for C2 at the concrete vocabulary `vocabEx`, text `"git status"`,
index `0`. -/
theorem C2_witness :
    vectorize vocabEx "git status" 0 =
      ((tokenize "git status").count (vocabEx.terms.get ⟨0, by decide⟩) : ℝ)
          / ((tokenize "git status").length : ℝ)
        * (Real.log ((1 + (vocabEx.nDocs : ℝ)) / (1 + (vocabEx.df.getD 0 0 : ℝ))) + 1)
        / l2norm (rawVec vocabEx (tokenize "git status")) :=
  (C2_vectorize_formula vocabEx "git status").1 0 (by decide)

/-! ### Catalog and Matcher -/

/-- Modelled from the spec: a Catalog Entry — identifier, description used for
matching, executable path, argument templates. -/
structure CatalogEntry where
  id : String
  description : String
  executable : String
  args : List String
deriving DecidableEq

/-- A catalog entry paired with its current Document Vector. -/
structure IndexedEntry where
  entry : CatalogEntry
  vec : ℕ →₀ ℝ

/-- Modelled from the spec: the Matcher's state — the current Vocabulary, the
indexed catalog entries, and the index-generation counter. -/
structure Matcher where
  vocab : Vocabulary
  index : List IndexedEntry
  generation : Nat

/-- Modelled from the spec: a Match Result — catalog entry identifier and
similarity score (the rank is the position in the returned sequence). -/
structure MatchResult where
  id : String
  score : ℝ

/-- The result ordering used by `query`: descending by score, ties broken by
identifier in ascending lexical order. -/
def resultOrder (a b : MatchResult) : Prop :=
  b.score < a.score ∨ (a.score = b.score ∧ a.id ≤ b.id)

noncomputable instance : DecidableRel resultOrder := fun a b => by
  unfold resultOrder
  infer_instance

instance : IsTotal MatchResult resultOrder :=
  ⟨fun a b => by
    unfold resultOrder
    rcases lt_trichotomy a.score b.score with h | h | h
    · exact Or.inr (Or.inl h)
    · rcases le_total a.id b.id with hid | hid
      · exact Or.inl (Or.inr ⟨h, hid⟩)
      · exact Or.inr (Or.inr ⟨h.symm, hid⟩)
    · exact Or.inl (Or.inl h)⟩

instance : IsTrans MatchResult resultOrder :=
  ⟨fun a b c hab hbc => by
    unfold resultOrder at hab hbc ⊢
    rcases hab with h1 | ⟨h1, h1id⟩
    · rcases hbc with h2 | ⟨h2, h2id⟩
      · exact Or.inl (lt_trans h2 h1)
      · exact Or.inl (h2 ▸ h1)
    · rcases hbc with h2 | ⟨h2, h2id⟩
      · exact Or.inl (by rw [h1]; exact h2)
      · exact Or.inr ⟨h1.trans h2, le_trans h1id h2id⟩⟩

/-- Modelled from the spec: `query(text, top_k, min_score)` vectorizes the
query, scores every indexed entry by cosine similarity, filters to scores at
least `min_score`, sorts descending by score with identifier tie-break, and
truncates to `top_k`. -/
noncomputable def query (m : Matcher) (text : String) (top_k : Nat) (min_score : ℝ) :
    List MatchResult :=
  let qv := vectorize m.vocab text
  let scored := m.index.map (fun e => MatchResult.mk e.entry.id (similarity qv e.vec))
  let filtered := scored.filter (fun r => decide (min_score ≤ r.score))
  (List.insertionSort resultOrder filtered).take top_k

/-- Claim C1: every `query` result clears the score threshold, the output is
sorted descending by score with identifier tie-break, its length is at most
`top_k`, and every result reports the actual similarity of an indexed entry
against the vectorized query. -/
theorem C1_query_spec (m : Matcher) (text : String) (k : Nat) (s : ℝ) :
    (∀ r ∈ query m text k s, s ≤ r.score)
    ∧ List.Sorted resultOrder (query m text k s)
    ∧ (query m text k s).length ≤ k
    ∧ (∀ r ∈ query m text k s, ∃ e ∈ m.index,
        r.id = e.entry.id ∧ r.score = similarity (vectorize m.vocab text) e.vec) := by
  have hmem : ∀ r ∈ query m text k s,
      r ∈ (m.index.map
            (fun e => MatchResult.mk e.entry.id
              (similarity (vectorize m.vocab text) e.vec))).filter
          (fun r => decide (s ≤ r.score)) := by
    intro r hr
    unfold query at hr
    have h1 := List.take_subset _ _ hr
    exact (List.mem_insertionSort resultOrder).mp h1
  refine ⟨?_, ?_, ?_, ?_⟩
  · intro r hr
    have h2 := List.mem_filter.mp (hmem r hr)
    exact of_decide_eq_true h2.2
  · unfold query
    exact (List.sorted_insertionSort resultOrder _).sublist (List.take_sublist _ _)
  · unfold query
    rw [List.length_take]
    exact min_le_left _ _
  · intro r hr
    have h2 := List.mem_filter.mp (hmem r hr)
    obtain ⟨e, he, hre⟩ := List.mem_map.mp h2.1
    exact ⟨e, he, by rw [← hre], by rw [← hre]⟩

/-- Claim C7: `query` is deterministic — for a fixed catalog state and fixed
arguments, two calls return identical result sequences.  The embedding is a
pure function of the Matcher state and the arguments, so this is definitional. -/
theorem C7_query_deterministic (m : Matcher) (text : String) (k : Nat) (s : ℝ) :
    query m text k s = query m text k s := rfl

/-- Claim C6: `vectorize` is idempotent with respect to repetition — two calls
on the same text against an unchanged vocabulary yield identical vectors.  The
embedding is a pure function of the vocabulary and the text, so this is
definitional. -/
theorem C6_vectorize_idempotent (v : Vocabulary) (text : String) :
    vectorize v text = vectorize v text := rfl

theorem tokenize_empty : tokenize "" = [] := rfl

theorem rawWeight_nil_toks (v : Vocabulary) (i : Nat) : rawWeight v [] i = 0 := by
  unfold rawWeight
  cases h : v.terms[i]? with
  | none => rfl
  | some t => simp

theorem vectorize_empty_text (v : Vocabulary) : vectorize v "" = 0 := by
  ext i
  rw [vectorize_apply, tokenize_empty, rawWeight_nil_toks, zero_div]
  simp

/-- Claim C5: `query` is total — on an empty catalog it returns the empty
sequence for every argument triple; an empty description vectorizes to the
all-zero vector, whose similarity to every query vector is 0, so such an
entry can never match a non-empty query. -/
theorem C5_query_total :
    (∀ (m : Matcher) (text : String) (k : Nat) (s : ℝ),
      m.index = [] → query m text k s = [])
    ∧ (∀ v : Vocabulary, vectorize v "" = 0)
    ∧ (∀ (v : Vocabulary) (b : ℕ →₀ ℝ), similarity (vectorize v "") b = 0) := by
  refine ⟨?_, vectorize_empty_text, ?_⟩
  · intro m text k s h
    unfold query
    rw [h]
    simp
  · intro v b
    rw [vectorize_empty_text]
    exact similarity_eq_zero_of_left_zero b

/-- A Matcher with an empty catalog, used as witness input. -/
def matcherEmpty : Matcher := ⟨emptyVocab, [], 0⟩

/-- Witness for C5 at a concrete empty catalog, an empty description, and a
concrete query vector. -/
theorem C5_witness :
    query matcherEmpty "status" 3 0 = []
    ∧ vectorize vocabEx "" = 0
    ∧ similarity (vectorize vocabEx "") unitVec = 0 :=
  ⟨C5_query_total.1 matcherEmpty "status" 3 0 rfl,
   C5_query_total.2.1 vocabEx,
   C5_query_total.2.2 vocabEx unitVec⟩

/-- Witness for C1 at a concrete catalog state and argument triple. -/
theorem C1_witness :
    (∀ r ∈ query matcherEmpty "status" 2 0, (0:ℝ) ≤ r.score)
    ∧ List.Sorted resultOrder (query matcherEmpty "status" 2 0)
    ∧ (query matcherEmpty "status" 2 0).length ≤ 2
    ∧ (∀ r ∈ query matcherEmpty "status" 2 0, ∃ e ∈ matcherEmpty.index,
        r.id = e.entry.id
        ∧ r.score = similarity (vectorize matcherEmpty.vocab "status") e.vec) :=
  C1_query_spec matcherEmpty "status" 2 0

/-! ### Incremental change application -/

/-- Modelled from the spec: `apply_change(added, modified, removed)` drops
removed entries, folds added/modified descriptions into vocabulary learning,
recomputes vectors for added/modified entries, and keeps every untouched
entry's existing vector. -/
noncomputable def apply_change (m : Matcher) (added modified : List CatalogEntry)
    (removed : List String) : Matcher :=
  let v1 := learn_vocabulary m.vocab ((added ++ modified).map (fun c => c.description))
  let touched := (added ++ modified).map (fun c => c.id)
  let kept := m.index.filter
    (fun e => decide (e.entry.id ∉ removed ∧ e.entry.id ∉ touched))
  let fresh := (added ++ modified).map
    (fun c => IndexedEntry.mk c (vectorize v1 c.description))
  { vocab := v1, index := kept ++ fresh, generation := m.generation + 1 }

/-- Claim C10: an indexed entry named in none of the added, modified or
removed sets survives `apply_change` verbatim — identifier, description,
executable, argument templates and Document Vector all unchanged. -/
theorem C10_frame (m : Matcher) (added modified : List CatalogEntry)
    (removed : List String) (e : IndexedEntry) (he : e ∈ m.index)
    (h1 : e.entry.id ∉ removed)
    (h2 : e.entry.id ∉ (added ++ modified).map (fun c => c.id)) :
    e ∈ (apply_change m added modified removed).index := by
  unfold apply_change
  rw [List.mem_append]
  left
  rw [List.mem_filter]
  exact ⟨he, decide_eq_true ⟨h1, h2⟩⟩

/-- A concrete indexed entry (zero vector) used as witness input. -/
noncomputable def entryEx : IndexedEntry :=
  ⟨⟨"git-status", "show git working tree status", "/usr/bin/git", ["status"]⟩, 0⟩

/-- A Matcher holding `entryEx`, used as witness input. -/
noncomputable def matcherEx : Matcher := ⟨vocabEx, [entryEx], 0⟩

/-- Witness for C10: the untouched entry survives a change removing an
unrelated identifier. -/
theorem C10_witness :
    entryEx ∈ matcherEx.index
    ∧ entryEx ∈ (apply_change matcherEx [] [] ["git-commit"]).index :=
  ⟨List.mem_singleton.mpr rfl,
   C10_frame matcherEx [] [] ["git-commit"] entryEx
     (List.mem_singleton.mpr rfl)
     (by decide)
     (by simp)⟩

/-! ### Vocabulary monotonicity across matcher operations -/

/-- A vocabulary-affecting operation within one process lifetime: either a
direct `learn_vocabulary` call or an `apply_change` call. -/
inductive MatcherOp where
  | learn (corpus : List String)
  | change (added modified : List CatalogEntry) (removed : List String)

/-- Applying one operation to the Matcher state. -/
noncomputable def applyOp (m : Matcher) : MatcherOp → Matcher
  | MatcherOp.learn c => { m with vocab := learn_vocabulary m.vocab c }
  | MatcherOp.change a mo r => apply_change m a mo r

/-- Applying a sequence of operations, left to right. -/
noncomputable def applyOps (m : Matcher) : List MatcherOp → Matcher
  | [] => m
  | op :: ops => applyOps (applyOp m op) ops

theorem applyOp_terms_append (m : Matcher) (op : MatcherOp) :
    ∃ ts, (applyOp m op).vocab.terms = m.vocab.terms ++ ts := by
  cases op with
  | learn c => exact learn_vocabulary_terms_append c m.vocab
  | change a mo r => exact learn_vocabulary_terms_append _ m.vocab

theorem applyOps_terms_append (ops : List MatcherOp) :
    ∀ m : Matcher, ∃ ts, (applyOps m ops).vocab.terms = m.vocab.terms ++ ts := by
  induction ops with
  | nil => intro m; exact ⟨[], (List.append_nil _).symm⟩
  | cons op ops ih =>
    intro m
    obtain ⟨ts1, h1⟩ := applyOp_terms_append m op
    obtain ⟨ts2, h2⟩ := ih (applyOp m op)
    exact ⟨ts1 ++ ts2, by rw [applyOps, h2, h1, List.append_assoc]⟩

/-- Claim C4: term-to-index assignment is append-only and monotonic — after
any sequence of `learn_vocabulary` / `apply_change` operations, every
previously assigned term index still resolves to the same term. -/
theorem C4_monotonic_vocab (m : Matcher) (ops : List MatcherOp) (i : Nat)
    (h : i < m.vocab.terms.length) :
    ∃ h2 : i < (applyOps m ops).vocab.terms.length,
      (applyOps m ops).vocab.terms.get ⟨i, h2⟩ = m.vocab.terms.get ⟨i, h⟩ := by
  obtain ⟨ts, hts⟩ := applyOps_terms_append ops m
  have h2 : i < (applyOps m ops).vocab.terms.length := by
    rw [hts, List.length_append]
    exact Nat.lt_of_lt_of_le h (Nat.le_add_right _ _)
  refine ⟨h2, ?_⟩
  rw [List.get_eq_getElem, List.get_eq_getElem]
  rw [List.getElem_of_eq hts]
  exact List.getElem_append_left h

/-- A Matcher with a one-term vocabulary, used as witness input. -/
def matcherW : Matcher := ⟨⟨["alpha"], [1], 1⟩, [], 0⟩

/-- Witness for C4: learning one more document leaves index 0 bound to the
same term. -/
theorem C4_witness :
    ∃ h2 : 0 < (applyOps matcherW [MatcherOp.learn ["beta"]]).vocab.terms.length,
      (applyOps matcherW [MatcherOp.learn ["beta"]]).vocab.terms.get ⟨0, h2⟩ =
        matcherW.vocab.terms.get ⟨0, by decide⟩ :=
  C4_monotonic_vocab matcherW [MatcherOp.learn ["beta"]] 0 (by decide)

/-! ### Fallible re-indexing -/

/-- Modelled from the spec: a re-index builds the new index off to the side
and swaps it in only on success; `build` stands for the fallible vocabulary
build step.  On failure the previously active index is returned untouched. -/
noncomputable def reindex (build : Vocabulary → Except String Vocabulary)
    (m : Matcher) (entries : List CatalogEntry) : Matcher :=
  match build m.vocab with
  | Except.error _ => m
  | Except.ok v1 =>
      { vocab := v1,
        index := entries.map (fun c => IndexedEntry.mk c (vectorize v1 c.description)),
        generation := m.generation + 1 }

/-- Claim C9: a re-index whose vocabulary build fails leaves the previously
active index (vocabulary and all entry vectors) exactly as it was. -/
theorem C9_reindex_atomic (build : Vocabulary → Except String Vocabulary)
    (m : Matcher) (entries : List CatalogEntry) (e : String)
    (hb : build m.vocab = Except.error e) :
    reindex build m entries = m := by
  unfold reindex
  rw [hb]

/-- Witness for C9 with a concretely failing build step. -/
theorem C9_witness :
    reindex (fun _ => Except.error "vocabulary build failed") matcherEx
      [⟨"new", "new entry", "/bin/new", []⟩] = matcherEx :=
  C9_reindex_atomic (fun _ => Except.error "vocabulary build failed") matcherEx
    [⟨"new", "new entry", "/bin/new", []⟩] "vocabulary build failed" rfl

/-! ### Process Manager -/

/-- Modelled from the spec: the per-handle lifecycle state machine of the
Process Manager.  `exited` and `failed` are the terminal states. -/
inductive ProcState where
  | pending
  | running
  | terminating
  | exited (status : Int)
  | failed (err : String)
deriving DecidableEq

/-- Whether a state is terminal. -/
def ProcState.isTerminal : ProcState → Bool
  | ProcState.exited _ => true
  | ProcState.failed _ => true
  | _ => false

/-- Modelled from the spec: the error taxonomy relevant to handle-table
operations. -/
inductive PmError where
  | invalidState
  | notFound
deriving DecidableEq

/-- Modelled from the spec: the Process Manager's table of live handles,
mapping a process identifier to its lifecycle state. -/
structure ProcessManager where
  table : List (Nat × ProcState)
deriving DecidableEq

/-- Look up the state of a handle in the table. -/
def findState : List (Nat × ProcState) → Nat → Option ProcState
  | [], _ => none
  | (k, st) :: rest, h => if k = h then some st else findState rest h

/-- Remove a handle from the table. -/
def removeHandle : List (Nat × ProcState) → Nat → List (Nat × ProcState)
  | [], _ => []
  | (k, st) :: rest, h =>
    if k = h then removeHandle rest h else (k, st) :: removeHandle rest h

/-- Replace the state of a handle in the table. -/
def setState : List (Nat × ProcState) → Nat → ProcState → List (Nat × ProcState)
  | [], _, _ => []
  | (k, st) :: rest, h, st1 =>
    if k = h then (k, st1) :: setState rest h st1 else (k, st) :: setState rest h st1

/-- Modelled from the spec: `terminate(handle, grace_period)` requests
graceful termination of a Running process (moving it to Terminating); on a
handle already in a terminal state — in particular Exited — it is a no-op
returning success.  The grace-period escalation is temporal behaviour outside
the state model. -/
def terminate (pm : ProcessManager) (h : Nat) (_grace : Nat) :
    Except PmError ProcessManager :=
  match findState pm.table h with
  | none => Except.error PmError.notFound
  | some ProcState.running => Except.ok ⟨setState pm.table h ProcState.terminating⟩
  | some _ => Except.ok pm

/-- Modelled from the spec: `reap(handle)` removes a terminal-state handle
from the table and fails with InvalidState on a non-terminal handle, leaving
the table unchanged (the error carries no new state). -/
def reap (pm : ProcessManager) (h : Nat) : Except PmError ProcessManager :=
  match findState pm.table h with
  | none => Except.error PmError.notFound
  | some st =>
    if st.isTerminal then Except.ok ⟨removeHandle pm.table h⟩
    else Except.error PmError.invalidState

/-- Claim C8: `terminate` on an already-Exited handle is a success no-op
(the table is returned unchanged), and `reap` on a handle in any non-terminal
state — such as Running — fails with InvalidState. -/
theorem C8_terminate_reap (pm : ProcessManager) (h g : Nat) :
    (∀ s : Int, findState pm.table h = some (ProcState.exited s) →
      terminate pm h g = Except.ok pm)
    ∧ (∀ st : ProcState, findState pm.table h = some st → st.isTerminal = false →
      reap pm h = Except.error PmError.invalidState) := by
  constructor
  · intro s hs
    unfold terminate
    rw [hs]
  · intro st hst hterm
    unfold reap
    rw [hst]
    simp only [hterm]
    rfl

/-- A concrete handle table: handle 1 has exited with status 0, handle 2 is
running. -/
def pmEx : ProcessManager := ⟨[(1, ProcState.exited 0), (2, ProcState.running)]⟩

/-- Witness for C8 on the concrete table `pmEx`. -/
theorem C8_witness :
    terminate pmEx 1 5 = Except.ok pmEx
    ∧ reap pmEx 2 = Except.error PmError.invalidState :=
  ⟨(C8_terminate_reap pmEx 1 5).1 0 rfl,
   (C8_terminate_reap pmEx 2 5).2 ProcState.running rfl rfl⟩

end Mcli
